import Mathlib

/-!
Verification development for the channel plugin framework.

This file gives a shallow embedding of the stateful kernel components
(pairing-based DM access control, TTL-bound thread bindings, per-message
lifecycle tracker, reconnect/retry policy, model failover chain) and proves
properties about them.  Times are modelled as exact rationals, the random
code generator as an explicit oracle, and platform calls (LLM calls, message
sends, sync connections) as explicit outcome oracles consumed by the control
flow translated from the source.
-/

namespace ChannelKernel

/-! ### String helpers

The python string operations used by the embedded code, implemented on the
character list of the string so that concrete runs reduce in the kernel. -/

/-- str.lower(). -/
def strToLower (s : String) : String :=
  String.mk (s.data.map Char.toLower)

/-- str.upper(). -/
def strToUpper (s : String) : String :=
  String.mk (s.data.map Char.toUpper)

/-- str.strip(): drop whitespace from both ends. -/
def strTrim (s : String) : String :=
  String.mk
    (((s.data.dropWhile Char.isWhitespace).reverse.dropWhile Char.isWhitespace).reverse)

/-- Truthiness of a python string: the empty string is falsy. -/
def strIsEmpty (s : String) : Bool :=
  s.data.isEmpty

/-- The membership test c in s for a single character. -/
def strContainsChar (s : String) (c : Char) : Bool :=
  s.data.contains c

/-- str.split(sep) for a one-character separator, on character lists; the
empty input yields one empty field, as in python. -/
def splitOnChar (c : Char) : List Char → List (List Char)
  | [] => [[]]
  | x :: xs =>
    if x = c then [] :: splitOnChar c xs
    else
      match splitOnChar c xs with
      | [] => [[x]]
      | h :: t => (x :: h) :: t

/-! ### Pairing manager (plugins/discord_channel/pairing.py) -/

/-- Characters for pairing codes; the source excludes 0, O, 1, I. -/
def SAFE_CHARS : List Char := "ABCDEFGHJKLMNPQRSTUVWXYZ23456789".toList

/-- A pending pairing request (dataclass PairingRequest). -/
structure PairingRequest where
  code : String
  sender_id : String
  sender_name : String
  channel_id : String
  created_at : ℚ
  expires_at : ℚ
deriving DecidableEq

/-- Dataclass construction followed by post-init: when the supplied
expiry is 0.0 the request expires one hour (3600 s, hardcoded) after
creation. -/
def mkPairingRequest (code sender_id sender_name channel_id : String)
    (created_at expires_at : ℚ) : PairingRequest :=
  { code := code, sender_id := sender_id, sender_name := sender_name,
    channel_id := channel_id, created_at := created_at,
    expires_at := if expires_at = 0 then created_at + 3600 else expires_at }

/-- PairingRequest.is_expired: time.time() >= expires_at. -/
def PairingRequest.is_expired (r : PairingRequest) (now : ℚ) : Bool :=
  decide (r.expires_at ≤ now)

/-- State of a PairingManager.  The pending dict (code -> request) is an
association list; the allow/block lists are finite sets of user ids. -/
structure PairingManager where
  policy : String
  owner_user_id : Option String
  max_pending : ℕ
  code_length : ℕ
  code_ttl : ℕ
  pending : List (String × PairingRequest)
  allowlist : Finset String
  blocklist : Finset String

namespace PairingManager

/-- PairingManager.is_authorized. -/
def is_authorized (m : PairingManager) (user_id : String) : Bool :=
  if m.policy = "open" then true
  else if m.policy = "disabled" then false
  else if m.policy = "owner" then decide (some user_id = m.owner_user_id)
  else if m.policy = "pairing" then
    if some user_id = m.owner_user_id then true
    else if user_id ∈ m.allowlist then true
    else if user_id ∈ m.blocklist then false
    else false
  else false

/-- PairingManager._cleanup_expired: drop expired pending requests. -/
def cleanup_expired (m : PairingManager) (now : ℚ) : PairingManager :=
  { m with pending := m.pending.filter (fun p => !(p.2.is_expired now)) }

/-- PairingManager.generate_code: random.choices(_SAFE_CHARS, k=code_length),
with the random choices supplied by the oracle pick. -/
def generate_code (code_length : ℕ) (pick : ℕ → Fin 32) : String :=
  String.mk ((List.range code_length).map (fun i => SAFE_CHARS.getD (pick i).val 'A'))

/-- The code-generation loop of create_request: generate a code, and while
it collides with a pending code generate again.  The oracle gen gives the
random choices of the n-th generate_code call; fuel bounds the search. -/
def pick_fresh_code (code_length : ℕ) (gen : ℕ → ℕ → Fin 32)
    (pendingCodes : List String) : ℕ → ℕ → Option String
  | _, 0 => none
  | call, fuel + 1 =>
    let code := generate_code code_length (gen call)
    if pendingCodes.contains code then
      pick_fresh_code code_length gen pendingCodes (call + 1) fuel
    else some code

/-- PairingManager.create_request.  Returns the optional created request and
the successor state. -/
def create_request (m : PairingManager) (now : ℚ) (gen : ℕ → ℕ → Fin 32)
    (fuel : ℕ) (sender_id sender_name channel_id : String) :
    Option PairingRequest × PairingManager :=
  if m.is_authorized sender_id then (none, m)
  else if m.pending.any
      (fun p => p.2.sender_id == sender_id && !(p.2.is_expired now)) then
    (none, m)
  else
    let m1 := m.cleanup_expired now
    let channel_pending := (m1.pending.filter
      (fun p => p.2.channel_id == channel_id && !(p.2.is_expired now))).length
    if m1.max_pending ≤ channel_pending then (none, m1)
    else
      match pick_fresh_code m1.code_length gen (m1.pending.map Prod.fst) 0 fuel with
      | none => (none, m1)
      | some code =>
        let request := mkPairingRequest code sender_id sender_name channel_id now 0
        (some request, { m1 with pending := m1.pending ++ [(code, request)] })

/-- The code normalisation performed by approve_code and deny_code:
code.upper().strip(). -/
def normalize_code (code : String) : String :=
  strTrim (strToUpper code)

/-- PairingManager.approve_code. -/
def approve_code (m : PairingManager) (now : ℚ) (code : String) :
    Option PairingRequest × PairingManager :=
  let c := normalize_code code
  match List.lookup c m.pending with
  | none => (none, m)
  | some request =>
    if request.is_expired now then
      (none, { m with pending := m.pending.eraseP (fun p => p.1 == c) })
    else
      (some request,
        { m with allowlist := insert request.sender_id m.allowlist,
                 pending := m.pending.eraseP (fun p => p.1 == c) })

/-- PairingManager.deny_code: pop the pending entry. -/
def deny_code (m : PairingManager) (code : String) :
    Option PairingRequest × PairingManager :=
  let c := normalize_code code
  match List.lookup c m.pending with
  | none => (none, m)
  | some request =>
    (some request, { m with pending := m.pending.eraseP (fun p => p.1 == c) })

/-- PairingManager.revoke: remove a user from the allowlist. -/
def revoke (m : PairingManager) (user_id : String) : Bool × PairingManager :=
  if user_id ∈ m.allowlist then
    (true, { m with allowlist := m.allowlist.erase user_id })
  else (false, m)

/-- PairingManager.block: add to the blocklist, then revoke from the
allowlist. -/
def block (m : PairingManager) (user_id : String) : PairingManager :=
  let m1 := { m with blocklist := insert user_id m.blocklist }
  (m1.revoke user_id).2

/-- PairingManager.list_pending: cleanup, then the non-expired requests. -/
def list_pending (m : PairingManager) (now : ℚ) :
    List PairingRequest × PairingManager :=
  let m1 := m.cleanup_expired now
  ((m1.pending.filter (fun p => !(p.2.is_expired now))).map Prod.snd, m1)

end PairingManager

/-- A pairing manager with the constructor defaults and empty state
(policy "pairing" for the pairing-flow scenarios). -/
def pairingM0 : PairingManager :=
  { policy := "pairing", owner_user_id := none, max_pending := 3,
    code_length := 8, code_ttl := 3600, pending := [],
    allowlist := ∅, blocklist := ∅ }

/-! ### Thread binding manager (plugins/discord_channel/thread_manager.py) -/

/-- A single thread to target binding (dataclass ThreadBinding).  The
free-form metadata dict is a string-keyed association list over an
arbitrary value type. -/
structure ThreadBinding (Meta : Type) where
  thread_id : String
  target : String
  user_id : String
  guild_id : Option String
  created_at : ℚ
  last_active : ℚ
  message_count : ℕ
  metadata : List (String × Meta)
deriving DecidableEq

/-- ThreadBinding.touch: refresh last_active and bump message_count. -/
def ThreadBinding.touch {Meta : Type} (b : ThreadBinding Meta) (now : ℚ) :
    ThreadBinding Meta :=
  { b with last_active := now, message_count := b.message_count + 1 }

/-- ThreadBinding.is_expired: ttl_hours <= 0 never expires; otherwise the
elapsed hours since last_active reached ttl_hours. -/
def ThreadBinding.is_expired {Meta : Type} (b : ThreadBinding Meta)
    (now ttl_hours : ℚ) : Bool :=
  if ttl_hours ≤ 0 then false
  else decide (ttl_hours ≤ (now - b.last_active) / 3600)

/-- State of a ThreadBindingManager: the thread_id -> binding dict as an
association list, plus the configured TTL and sweep interval. -/
structure ThreadBindingManager (Meta : Type) where
  bindings : List (String × ThreadBinding Meta)
  ttl_hours : ℚ
  cleanup_interval : ℚ

/-- Assignment d[k] = v on a python dict modelled as an association list:
replace in place when the key exists, append otherwise. -/
def dictInsert {β : Type} (l : List (String × β)) (k : String) (v : β) :
    List (String × β) :=
  if l.any (fun p => p.1 == k) then
    l.map (fun p => if p.1 = k then (k, v) else p)
  else l ++ [(k, v)]

namespace ThreadBindingManager

variable {Meta : Type}

/-- ThreadBindingManager.bind: construct a fresh binding (created_at and
last_active default to the current time, message_count to 0, metadata to
the supplied dict or empty) and store it, replacing any prior binding. -/
def bind (st : ThreadBindingManager Meta) (now : ℚ)
    (thread_id target user_id : String) (guild_id : Option String)
    (metadata : Option (List (String × Meta))) :
    ThreadBinding Meta × ThreadBindingManager Meta :=
  let binding : ThreadBinding Meta :=
    { thread_id := thread_id, target := target, user_id := user_id,
      guild_id := guild_id, created_at := now, last_active := now,
      message_count := 0, metadata := metadata.getD [] }
  (binding, { st with bindings := dictInsert st.bindings thread_id binding })

/-- ThreadBindingManager.unbind: pop and return the prior binding. -/
def unbind (st : ThreadBindingManager Meta) (thread_id : String) :
    Option (ThreadBinding Meta) × ThreadBindingManager Meta :=
  match List.lookup thread_id st.bindings with
  | none => (none, st)
  | some b =>
    (some b, { st with bindings := st.bindings.eraseP (fun p => p.1 == thread_id) })

/-- ThreadBindingManager.get_binding: pure lookup, no touch. -/
def get_binding (st : ThreadBindingManager Meta) (thread_id : String) :
    Option (ThreadBinding Meta) :=
  List.lookup thread_id st.bindings

/-- ThreadBindingManager.touch. -/
def touch (st : ThreadBindingManager Meta) (now : ℚ) (thread_id : String) :
    Bool × ThreadBindingManager Meta :=
  match List.lookup thread_id st.bindings with
  | none => (false, st)
  | some _ =>
    (true, { st with bindings :=
      st.bindings.map (fun p => if p.1 = thread_id then (p.1, p.2.touch now) else p) })

/-- ThreadBindingManager.is_bound. -/
def is_bound (st : ThreadBindingManager Meta) (thread_id : String) : Bool :=
  st.bindings.any (fun p => p.1 == thread_id)

/-- ThreadBindingManager.list_bindings: the stored bindings, optionally
filtered by guild or user (a None or empty filter string is falsy in the
source and applies no filter).  There is no expiry check here. -/
def list_bindings (st : ThreadBindingManager Meta)
    (guild_id user_id : Option String) : List (ThreadBinding Meta) :=
  let bs := st.bindings.map Prod.snd
  let bs := match guild_id with
    | some g => if strIsEmpty g then bs else bs.filter (fun b => b.guild_id == some g)
    | none => bs
  match user_id with
  | some u => if strIsEmpty u then bs else bs.filter (fun b => b.user_id == u)
  | none => bs

/-- ThreadBindingManager.count. -/
def count (st : ThreadBindingManager Meta) : ℕ :=
  st.bindings.length

/-- ThreadBindingManager.get_bindings_for_target: filter by target, with no
expiry check. -/
def get_bindings_for_target (st : ThreadBindingManager Meta) (target : String) :
    List (ThreadBinding Meta) :=
  (st.bindings.map Prod.snd).filter (fun b => b.target == target)

/-- ThreadBindingManager.get_targets: the distinct targets of the stored
bindings (list(set(...)) in the source), with no expiry check. -/
def get_targets (st : ThreadBindingManager Meta) : List String :=
  ((st.bindings.map Prod.snd).map (fun b => b.target)).dedup

/-- ThreadBindingManager.expire_stale: remove and return every binding past
its TTL; a non-positive TTL disables expiry. -/
def expire_stale (st : ThreadBindingManager Meta) (now : ℚ) :
    List (ThreadBinding Meta) × ThreadBindingManager Meta :=
  if st.ttl_hours ≤ 0 then ([], st)
  else
    ((st.bindings.filter (fun p => p.2.is_expired now st.ttl_hours)).map Prod.snd,
      { st with bindings :=
        st.bindings.filter (fun p => !(p.2.is_expired now st.ttl_hours)) })

end ThreadBindingManager

/-! ### Lifecycle tracker (python/helpers/lifecycle_reactions.py) -/

/-- Configurable emoji set for the processing lifecycle phases. -/
structure LifecycleEmojis where
  queued : String
  thinking : String
  tool_use : String
  done : String
  error : String
  streaming : String
deriving DecidableEq

/-- The default emoji set. -/
def DEFAULT_EMOJIS : LifecycleEmojis :=
  { queued := "📨", thinking := "🤔", tool_use := "⚙️",
    done := "✅", error := "❌", streaming := "💬" }

/-- The getattr(emojis, phase_name, None) lookup of the source. -/
def emojiFor (e : LifecycleEmojis) (name : String) : Option String :=
  if name = "queued" then some e.queued
  else if name = "thinking" then some e.thinking
  else if name = "tool_use" then some e.tool_use
  else if name = "done" then some e.done
  else if name = "error" then some e.error
  else if name = "streaming" then some e.streaming
  else none

/-- An invocation of one of the tracker's reaction callbacks. -/
inductive ReactionEvent where
  | add (emoji : String)
  | remove (emoji : String)
deriving DecidableEq

/-- State of a LifecycleTracker: whether the react / unreact callbacks were
supplied, the current phase, and the channel's emoji set. -/
structure LifecycleTracker where
  channel_id : String
  hasReact : Bool
  hasUnreact : Bool
  current_phase : Option String
  emojis : LifecycleEmojis
deriving DecidableEq

namespace LifecycleTracker

/-- The truthiness test python applies to the optional current phase. -/
def phaseTruthy (p : Option String) : Bool :=
  match p with
  | none => false
  | some s => !(strIsEmpty s)

/-- LifecycleTracker.phase: look up the indicator for the phase name
(unknown or falsy indicators are ignored); when transitioning from a
different phase first invoke the remove callback for the old indicator,
then set the phase and invoke the add callback.  Returns the new tracker
state and the callback invocations, in order. -/
def phase (t : LifecycleTracker) (phase_name : String) :
    LifecycleTracker × List ReactionEvent :=
  match emojiFor t.emojis phase_name with
  | none => (t, [])
  | some emoji =>
    if strIsEmpty emoji then (t, [])
    else
      let removeEvents :=
        match t.current_phase with
        | none => []
        | some cur =>
          if !(strIsEmpty cur) && cur ≠ phase_name then
            match emojiFor t.emojis cur with
            | none => []
            | some old =>
              if !(strIsEmpty old) && t.hasUnreact then [ReactionEvent.remove old]
              else []
          else []
      let addEvents := if t.hasReact then [ReactionEvent.add emoji] else []
      ({ t with current_phase := some phase_name }, removeEvents ++ addEvents)

/-- LifecycleTracker.done. -/
def markDone (t : LifecycleTracker) : LifecycleTracker × List ReactionEvent :=
  t.phase "done"

/-- LifecycleTracker.error. -/
def markError (t : LifecycleTracker) : LifecycleTracker × List ReactionEvent :=
  t.phase "error"

end LifecycleTracker

/-! ### Matrix channel adapter (plugins/matrix_channel/bot.py) -/

namespace MatrixChannelAdapter

def MAX_RETRIES : ℕ := 3

def BASE_BACKOFF_SECONDS : ℚ := 2

def RECONNECT_INITIAL_DELAY : ℚ := 5

def RECONNECT_MAX_DELAY : ℚ := 300

/-- Match a regex-literal pattern (where the character . is a wildcard for
any single character other than a newline) against the start of a text. -/
def wildcardMatchAt : List Char → List Char → Bool
  | [], _ => true
  | _ :: _, [] => false
  | p :: ps, t :: ts =>
    (if p == '.' then t != '\n' else p == t) && wildcardMatchAt ps ts

/-- Search for the pattern anywhere in the text. -/
def wildcardSearch (pat txt : List Char) : Bool :=
  txt.tails.any (fun t => wildcardMatchAt pat t)

/-- The overload signatures of _OVERLOAD_PATTERNS. -/
def OVERLOAD_PATTERNS : List String :=
  ["overloaded", "service.unavailable", "high.demand", "503", "502",
   "temporarily.unavailable"]

/-- _is_overload_error: the case-insensitive regex alternation search,
modelled by searching each lowercase alternative in the lowercased error
text. -/
def is_overload_error (msg : String) : Bool :=
  OVERLOAD_PATTERNS.any (fun p => wildcardSearch p.data (strToLower msg).data)

/-- The retry loop of send_message.  The oracle gives the outcome of the
n-th attempt (ok, or an exception message); the second argument is the
attempt counter, the third the remaining loop iterations (initially
MAX_RETRIES).  Returns the boolean result, the backoff sleeps performed in
order, and the number of attempts made.  The retry condition of the source
is attempt < MAX_RETRIES - 1, written att + 1 < MAX_RETRIES here. -/
def sendLoop (oracle : ℕ → Except String Unit) : ℕ → ℕ → Bool × List ℚ × ℕ
  | _, 0 => (false, [], 0)
  | att, r + 1 =>
    match oracle att with
    | Except.ok _ => (true, [], 1)
    | Except.error e =>
      if is_overload_error e && decide (att + 1 < MAX_RETRIES) then
        let res := sendLoop oracle (att + 1) r
        (res.1, BASE_BACKOFF_SECONDS * 2 ^ att :: res.2.1, res.2.2 + 1)
      else (false, [], 1)

/-- MatrixChannelAdapter.send_message: fail fast when the client is not
connected or the target has no colon separator, otherwise run the retry
loop. -/
def send_message (clientConnected : Bool) (target : String)
    (oracle : ℕ → Except String Unit) : Bool × List ℚ × ℕ :=
  if !clientConnected then (false, [], 0)
  else if !(strContainsChar target ':') then (false, [], 0)
  else sendLoop oracle 0 MAX_RETRIES

/-- Outcome of one sync_forever call inside the reconnect loop: the
connection dropped with an exception, the call returned normally, or the
task was cancelled. -/
inductive SyncFate where
  | drop (errMsg : String)
  | returned
  | cancelled
deriving DecidableEq

/-- The body of _sync_with_reconnect, given the current reconnect delay and
the successive fates of the sync_forever calls; the empty list stands for
the should_reconnect flag turning false.  On a drop the loop sleeps the
current delay and doubles it up to RECONNECT_MAX_DELAY; leaving the loop
stores RECONNECT_INITIAL_DELAY again.  Returns the sleeps performed in
order and the delay stored on exit. -/
def reconnectLoop : ℚ → List SyncFate → List ℚ × ℚ
  | _, [] => ([], RECONNECT_INITIAL_DELAY)
  | _, SyncFate.cancelled :: _ => ([], RECONNECT_INITIAL_DELAY)
  | delay, SyncFate.returned :: rest => reconnectLoop delay rest
  | delay, SyncFate.drop _ :: rest =>
    let res := reconnectLoop (min (delay * 2) RECONNECT_MAX_DELAY) rest
    (delay :: res.1, res.2)

/-- MatrixChannelAdapter._sync_with_reconnect starts with the initial
delay. -/
def sync_with_reconnect (fates : List SyncFate) : List ℚ × ℚ :=
  reconnectLoop RECONNECT_INITIAL_DELAY fates

end MatrixChannelAdapter

/-! ### Model failover chain (python/helpers/model_failover.py) -/

namespace ModelFailover

/-- _FAILOVER_PATTERNS: error signatures classified transient. -/
def FAILOVER_PATTERNS : List String :=
  ["rate_limit", "rate limit", "429", "quota", "overloaded",
   "service_unavailable", "503", "502", "timeout", "timed out",
   "connection", "temporarily unavailable", "capacity", "too many requests"]

/-- Plain substring search. -/
def substrSearch (pat txt : List Char) : Bool :=
  txt.tails.any (fun t => pat.isPrefixOf t)

/-- _is_retriable: some pattern occurs in the lowercased error text. -/
def is_retriable (msg : String) : Bool :=
  FAILOVER_PATTERNS.any (fun p => substrSearch p.data (strToLower msg).data)

/-- entry.split(sep, 1): split at the first occurrence of the separator,
or nothing when the separator does not occur. -/
def splitFirst (s : String) (c : Char) : Option (String × String) :=
  let l := s.data
  let pre := l.takeWhile (fun x => x != c)
  if pre.length = l.length then none
  else some (String.mk pre, String.mk (l.drop (pre.length + 1)))

/-- parse_failover_chain: split on commas; each trimmed entry with a colon
becomes a (provider, model) pair (both trimmed); an entry without a colon
is skipped (the source logs a warning). -/
def parse_failover_chain (chain : String) : List (String × String) :=
  if strIsEmpty (strTrim chain) then []
  else
    ((splitOnChar ',' chain.data).map String.mk).filterMap (fun entry =>
      let e := strTrim entry
      match splitFirst e ':' with
      | some pm => some (strTrim pm.1, strTrim pm.2)
      | none => none)

/-- Result of the per-entry retry loop of call_with_failover: the optional
success value, the last error seen, the attempt indices tried on this
entry in order, and the backoff sleeps performed. -/
structure EntryRun (α : Type) where
  result : Option α
  lastErr : Option String
  tried : List ℕ
  sleeps : List ℚ
deriving DecidableEq

/-- The inner for-attempt loop of call_with_failover on one entry.  The
oracle gives the outcome of the n-th attempt; the arguments are the
attempt counter, the remaining iterations (initially max_retries, so the
counter plus the remaining always equals max_retries) and the last error
carried in from earlier entries.  On a retriable error before the final
attempt it sleeps base * 2 ^ attempt and retries; on a non-retriable error
it breaks immediately.  The source writes the retry condition
attempt < max_retries - 1, written att + 1 < max_retries here. -/
def runEntry {α : Type} (oracle : ℕ → Except String α) (base : ℚ)
    (max_retries : ℕ) : ℕ → ℕ → Option String → EntryRun α
  | _, 0, le => ⟨none, le, [], []⟩
  | att, r + 1, le =>
    match oracle att with
    | Except.ok a => ⟨some a, le, [att], []⟩
    | Except.error e =>
      if is_retriable e then
        if att + 1 < max_retries then
          let res := runEntry oracle base max_retries (att + 1) r (some e)
          ⟨res.result, res.lastErr, att :: res.tried, base * 2 ^ att :: res.sleeps⟩
        else ⟨none, some e, [att], []⟩
      else ⟨none, some e, [att], []⟩

/-- Result of a whole call_with_failover run: the optional success value,
the last error (the one re-raised when no entry succeeded), the attempts
made as (entry index, attempt index) pairs in order, and the sleeps. -/
structure FoRun (α : Type) where
  result : Option α
  lastErr : Option String
  attempts : List (ℕ × ℕ)
  sleeps : List ℚ
deriving DecidableEq

/-- The outer for-entry loop of call_with_failover: run the retry loop on
each entry of the chain in order until one succeeds, threading the last
error through.  The oracle gives the outcome of attempt j on the entry at
position i. -/
def runChain {α : Type} (oracle : ℕ → ℕ → Except String α) (base : ℚ)
    (max_retries : ℕ) : ℕ → List (String × String) → Option String → FoRun α
  | _, [], le => ⟨none, le, [], []⟩
  | idx, _ :: rest, le =>
    let r := runEntry (oracle idx) base max_retries 0 max_retries le
    match r.result with
    | some a => ⟨some a, r.lastErr, r.tried.map (fun j => (idx, j)), r.sleeps⟩
    | none =>
      let res := runChain oracle base max_retries (idx + 1) rest r.lastErr
      ⟨res.result, res.lastErr,
        r.tried.map (fun j => (idx, j)) ++ res.attempts, r.sleeps ++ res.sleeps⟩

/-- call_with_failover: the chain is the primary entry followed, when
failover is enabled and the chain spec is a non-empty string, by the parsed
failover chain; a missing result means the last error was re-raised. -/
def call_with_failover {α : Type} (oracle : ℕ → ℕ → Except String α)
    (primary_provider primary_model : String) (failover_chain : String)
    (failover_enabled : Bool) (max_retries_per_model : ℕ) (base_backoff : ℚ) :
    FoRun α :=
  let models_to_try := (primary_provider, primary_model) ::
    (if failover_enabled && !(strIsEmpty failover_chain) then
      parse_failover_chain failover_chain else [])
  runChain oracle base_backoff max_retries_per_model 0 models_to_try none

/-- The expected attempt pairs when n entries starting at index idx each
get max_retries attempts: the (entry, attempt) grid in order. -/
def gridAttempts (idx n max_retries : ℕ) : List (ℕ × ℕ) :=
  (List.range n).flatMap
    (fun i => (List.range max_retries).map (fun j => (idx + i, j)))

end ModelFailover

/-! ### Concrete states used by witnesses and counterexamples -/

/-- A stored binding with non-trivial counter, timestamps and metadata. -/
def oldBinding : ThreadBinding String :=
  { thread_id := "t", target := "old-target", user_id := "creator",
    guild_id := some "g", created_at := 1, last_active := 2,
    message_count := 7, metadata := [("k", "v")] }

/-- A thread manager holding oldBinding under the default TTL. -/
def threadM0 : ThreadBindingManager String :=
  { bindings := [("t", oldBinding)], ttl_hours := 24, cleanup_interval := 300 }

/-- A code-generation oracle that always picks the first safe character. -/
def genA : ℕ → ℕ → Fin 32 := fun _ _ => ⟨0, by decide⟩

/-- A pairing manager under the pairing policy whose blocklist holds u. -/
def pairingMB : PairingManager :=
  { policy := "pairing", owner_user_id := none, max_pending := 3,
    code_length := 8, code_ttl := 3600, pending := [], allowlist := ∅,
    blocklist := {"u"} }

/-- A pairing manager with u in both the allowlist and the blocklist. -/
def pairingMBoth : PairingManager :=
  { pairingMB with allowlist := {"u"} }

/-- A pending request stored under code ABCDEFGH, created at time 0 and
expiring at 3600. -/
def reqA : PairingRequest :=
  { code := "ABCDEFGH", sender_id := "u", sender_name := "U",
    channel_id := "chan", created_at := 0, expires_at := 3600 }

/-- A pairing manager holding reqA as its only pending request. -/
def pairingM1 : PairingManager :=
  { policy := "pairing", owner_user_id := none, max_pending := 3,
    code_length := 8, code_ttl := 3600,
    pending := [("ABCDEFGH", reqA)], allowlist := ∅, blocklist := ∅ }

/-- The state of pairingM1 after its pending request is approved. -/
def pairingM1approved : PairingManager :=
  { pairingM1 with allowlist := insert "u" pairingM1.allowlist, pending := [] }

/-- A pairing manager configured with code_ttl_seconds = 60. -/
def pairingM2 : PairingManager :=
  { pairingM0 with code_ttl := 60 }

/-- A pending request on channel chan used to fill the channel limit. -/
def reqFull (code sid sname : String) : PairingRequest :=
  { code := code, sender_id := sid, sender_name := sname,
    channel_id := "chan", created_at := 0, expires_at := 3600 }

/-- A pairing manager whose channel chan already holds three non-expired
pending requests (the default per-channel maximum). -/
def pairingM3 : PairingManager :=
  { policy := "pairing", owner_user_id := none, max_pending := 3,
    code_length := 8, code_ttl := 3600,
    pending := [("CCCCCCC2", reqFull "CCCCCCC2" "s1" "S1"),
                ("CCCCCCC3", reqFull "CCCCCCC3" "s2" "S2"),
                ("CCCCCCC4", reqFull "CCCCCCC4" "s3" "S3")],
    allowlist := ∅, blocklist := ∅ }

/-- A binding last active at time 0 (stale once the TTL elapses). -/
def staleBinding : ThreadBinding String :=
  { thread_id := "t", target := "tgt", user_id := "u", guild_id := none,
    created_at := 0, last_active := 0, message_count := 0, metadata := [] }

/-- A thread manager holding staleBinding with a one-hour TTL. -/
def threadM1 : ThreadBindingManager String :=
  { bindings := [("t", staleBinding)], ttl_hours := 1, cleanup_interval := 300 }

/-- A fresh lifecycle tracker with both callbacks supplied and the default
emoji set. -/
def trackerT0 : LifecycleTracker :=
  { channel_id := "c", hasReact := true, hasUnreact := true,
    current_phase := none, emojis := DEFAULT_EMOJIS }

/-! ### Helper lemmas -/

theorem lookup_map_replace {β : Type} (l : List (String × β)) (k : String)
    (v : β) (h : l.any (fun p => p.1 == k) = true) :
    List.lookup k (l.map (fun p => if p.1 = k then (k, v) else p)) = some v := by
  induction l with
  | nil => simp at h
  | cons a t ih =>
    simp only [List.map_cons]
    by_cases hak : a.1 = k
    · rw [if_pos hak]
      simp [List.lookup]
    · rw [if_neg hak]
      have hka : (k == a.1) = false := beq_eq_false_iff_ne.mpr (fun hh => hak hh.symm)
      have ht : t.any (fun p => p.1 == k) = true := by
        simp only [List.any_cons, Bool.or_eq_true] at h
        rcases h with h | h
        · exact absurd (by simpa using h) hak
        · exact h
      simp [List.lookup, hka, ih ht]

theorem lookup_append_fresh {β : Type} (l : List (String × β)) (k : String)
    (v : β) (h : ∀ p ∈ l, p.1 ≠ k) :
    List.lookup k (l ++ [(k, v)]) = some v := by
  induction l with
  | nil => simp [List.lookup]
  | cons a t ih =>
    have hak : a.1 ≠ k := h a (by simp)
    have hka : (k == a.1) = false := beq_eq_false_iff_ne.mpr (fun hh => hak hh.symm)
    simpa [List.lookup, hka] using ih (fun p hp => h p (by simp [hp]))

theorem lookup_eq_none_of_not_mem_keys {β : Type} (l : List (String × β))
    (k : String) (h : k ∉ l.map Prod.fst) : List.lookup k l = none := by
  induction l with
  | nil => rfl
  | cons a t ih =>
    simp only [List.map_cons, List.mem_cons, not_or] at h
    have hka : (k == a.1) = false := beq_eq_false_iff_ne.mpr h.1
    simpa [List.lookup, hka] using ih h.2

theorem lookup_eraseP_nodup {β : Type} (l : List (String × β)) (k : String)
    (hnd : (l.map Prod.fst).Nodup) :
    List.lookup k (l.eraseP (fun p => p.1 == k)) = none := by
  induction l with
  | nil => rfl
  | cons a t ih =>
    simp only [List.map_cons, List.nodup_cons] at hnd
    by_cases hak : a.1 = k
    · rw [List.eraseP_cons_of_pos (by simp [hak])]
      exact lookup_eq_none_of_not_mem_keys t k (hak ▸ hnd.1)
    · rw [List.eraseP_cons_of_neg (by simp [hak])]
      have hka : (k == a.1) = false := beq_eq_false_iff_ne.mpr (fun hh => hak hh.symm)
      simpa [List.lookup, hka] using ih hnd.2

theorem lookup_dictInsert {β : Type} (l : List (String × β)) (k : String)
    (v : β) : List.lookup k (dictInsert l k v) = some v := by
  unfold dictInsert
  by_cases h : l.any (fun p => p.1 == k) = true
  · rw [if_pos h]
    exact lookup_map_replace l k v h
  · rw [if_neg h]
    refine lookup_append_fresh l k v (fun p hp hpk => h ?_)
    simp only [List.any_eq_true]
    exact ⟨p, hp, by simp [hpk]⟩

/-! ### C10 -/

/-- C10: bind on an already-bound thread id replaces the binding with a
freshly-constructed one: the returned binding has message_count 0, its
created_at and last_active are the binding time, its metadata is the newly
supplied map, and the manager maps the thread id to exactly that fresh
binding — nothing of the previous binding is carried over. -/
theorem C10_bind_replaces_with_fresh_binding {Meta : Type}
    (st : ThreadBindingManager Meta) (now : ℚ) (tid target uid : String)
    (gid : Option String) (meta : List (String × Meta))
    (old : ThreadBinding Meta) (hbound : st.get_binding tid = some old) :
    (st.bind now tid target uid gid (some meta)).1 =
      { thread_id := tid, target := target, user_id := uid, guild_id := gid,
        created_at := now, last_active := now, message_count := 0,
        metadata := meta } ∧
    (st.bind now tid target uid gid (some meta)).2.get_binding tid =
      some (st.bind now tid target uid gid (some meta)).1 := by
  constructor
  · rfl
  · simpa [ThreadBindingManager.bind, ThreadBindingManager.get_binding] using
      lookup_dictInsert st.bindings tid _

/-- Witness for C10 at a concrete already-bound state: the stored binding
has message_count 7 and old timestamps and metadata, and after rebinding
the stored binding is the fresh one. -/
theorem C10_witness :
    threadM0.get_binding "t" = some oldBinding ∧
    ((threadM0.bind 5 "t" "new-target" "u2" none (some [("k2", "v2")])).1 =
      { thread_id := "t", target := "new-target", user_id := "u2",
        guild_id := none, created_at := 5, last_active := 5,
        message_count := 0, metadata := [("k2", "v2")] } ∧
    (threadM0.bind 5 "t" "new-target" "u2" none (some [("k2", "v2")])).2.get_binding "t" =
      some (threadM0.bind 5 "t" "new-target" "u2" none (some [("k2", "v2")])).1) := by
  have h : threadM0.get_binding "t" = some oldBinding := by
    simp [threadM0, ThreadBindingManager.get_binding, List.lookup]
  exact ⟨h, C10_bind_replaces_with_fresh_binding threadM0 5 "t" "new-target" "u2"
    none [("k2", "v2")] oldBinding h⟩

theorem pick_fresh_code_spec (code_length : ℕ) (gen : ℕ → ℕ → Fin 32)
    (pendingCodes : List String) (call fuel : ℕ) (c : String)
    (h : PairingManager.pick_fresh_code code_length gen pendingCodes call fuel
      = some c) :
    pendingCodes.contains c = false ∧
    ∃ n, c = PairingManager.generate_code code_length (gen n) := by
  induction fuel generalizing call with
  | zero => simp [PairingManager.pick_fresh_code] at h
  | succ f ih =>
    rw [PairingManager.pick_fresh_code] at h
    by_cases hc : pendingCodes.contains
        (PairingManager.generate_code code_length (gen call)) = true
    · rw [if_pos hc] at h
      exact ih (call + 1) h
    · rw [if_neg hc] at h
      obtain rfl : PairingManager.generate_code code_length (gen call) = c :=
        Option.some.inj h
      exact ⟨Bool.not_eq_true _ |>.mp hc, call, rfl⟩

theorem generate_code_length (code_length : ℕ) (pick : ℕ → Fin 32) :
    (PairingManager.generate_code code_length pick).data.length = code_length := by
  simp [PairingManager.generate_code]

theorem generate_code_chars (code_length : ℕ) (pick : ℕ → Fin 32) :
    ∀ ch ∈ (PairingManager.generate_code code_length pick).data,
      ch ∈ SAFE_CHARS := by
  intro ch hch
  simp only [PairingManager.generate_code, List.mem_map] at hch
  obtain ⟨i, _, rfl⟩ := hch
  have hlt : (pick i).val < SAFE_CHARS.length := by
    have h32 : SAFE_CHARS.length = 32 := by decide
    rw [h32]
    exact (pick i).isLt
  rw [List.getD_eq_getElem SAFE_CHARS 'A' hlt]
  exact List.getElem_mem _

theorem flatMap_map_succ (f : ℕ → List (ℕ × ℕ)) (l : List ℕ) :
    (l.map Nat.succ).flatMap f = l.flatMap (fun i => f (i + 1)) := by
  induction l with
  | nil => rfl
  | cons a t ih => simp [List.flatMap_cons, ih]

theorem gridAttempts_succ (idx n max_retries : ℕ) :
    ModelFailover.gridAttempts idx (n + 1) max_retries =
      (List.range max_retries).map (fun j => (idx, j)) ++
        ModelFailover.gridAttempts (idx + 1) n max_retries := by
  unfold ModelFailover.gridAttempts
  rw [List.range_succ_eq_map, List.flatMap_cons, flatMap_map_succ]
  have hfun : (fun i => (List.range max_retries).map (fun j => (idx + (i + 1), j)))
      = (fun i => (List.range max_retries).map (fun j => (idx + 1 + i, j))) := by
    funext i
    have h : idx + (i + 1) = idx + 1 + i := by omega
    rw [h]
  rw [hfun]
  congr 1

theorem runEntry_allRetriable {A : Type} (call : ℕ → Except String A)
    (em : ℕ → String) (base : ℚ) (max_retries : ℕ)
    (hc : ∀ j, call j = Except.error (em j))
    (hr : ∀ j, ModelFailover.is_retriable (em j) = true) :
    ∀ (remaining att : ℕ) (le : Option String), 1 ≤ remaining →
      att + remaining = max_retries →
      (ModelFailover.runEntry call base max_retries att remaining le).result
          = none ∧
      (ModelFailover.runEntry call base max_retries att remaining le).lastErr
          = some (em (max_retries - 1)) ∧
      (ModelFailover.runEntry call base max_retries att remaining le).tried
          = (List.range remaining).map (fun k => att + k) := by
  intro remaining
  induction remaining with
  | zero => intro att le h1 _; simp at h1
  | succ r ih =>
    intro att le _ h2
    rw [ModelFailover.runEntry, hc att]
    simp only [hr att, if_true]
    by_cases hlt : att + 1 < max_retries
    · rw [if_pos hlt]
      have hr1 : 1 ≤ r := by omega
      obtain ⟨ih1, ih2, ih3⟩ := ih (att + 1) (some (em att)) hr1 (by omega)
      refine ⟨ih1, ih2, ?_⟩
      dsimp only
      rw [ih3, List.range_succ_eq_map, List.map_cons, List.map_map, Nat.add_zero]
      congr 1
      have hfun : ((fun k => att + k) ∘ Nat.succ) = (fun k => att + 1 + k) := by
        funext k
        simp only [Function.comp_apply]
        omega
      rw [hfun]
    · rw [if_neg hlt]
      have hr0 : r = 0 := by omega
      have hatt : att = max_retries - 1 := by omega
      subst hr0
      refine ⟨rfl, ?_, ?_⟩
      · dsimp only
        rw [hatt]
      · dsimp only
        rw [show List.range (0 + 1) = [0] by rfl]
        simp

theorem runChain_attempts_idx_le {A : Type} (oracle : ℕ → ℕ → Except String A)
    (base : ℚ) (max_retries : ℕ) :
    ∀ (entries : List (String × String)) (idx : ℕ) (le : Option String),
      ∀ p ∈ (ModelFailover.runChain oracle base max_retries idx entries le).attempts,
        idx ≤ p.1 := by
  intro entries
  induction entries with
  | nil => intro idx le p hp; simp [ModelFailover.runChain] at hp
  | cons e rest ih =>
    intro idx le p hp
    simp only [ModelFailover.runChain] at hp
    rcases hres : (ModelFailover.runEntry (oracle idx) base max_retries 0
        max_retries le).result with _ | a
    · rw [hres] at hp
      dsimp only at hp
      rcases List.mem_append.mp hp with hl | hr2
      · obtain ⟨j, _, rfl⟩ := List.mem_map.mp hl
        exact le_refl idx
      · have := ih (idx + 1)
          ((ModelFailover.runEntry (oracle idx) base max_retries 0
            max_retries le).lastErr) p hr2
        omega
    · rw [hres] at hp
      dsimp only at hp
      obtain ⟨j, _, rfl⟩ := List.mem_map.mp hp
      exact le_refl idx

theorem runChain_allRetriable {A : Type} (oracle : ℕ → ℕ → Except String A)
    (em : ℕ → ℕ → String) (base : ℚ) (max_retries : ℕ) (hmax : 1 ≤ max_retries)
    (hc : ∀ i j, oracle i j = Except.error (em i j))
    (hr : ∀ i j, ModelFailover.is_retriable (em i j) = true) :
    ∀ (entries : List (String × String)) (idx : ℕ) (le : Option String),
      1 ≤ entries.length →
      (ModelFailover.runChain oracle base max_retries idx entries le).result
          = none ∧
      (ModelFailover.runChain oracle base max_retries idx entries le).lastErr
          = some (em (idx + entries.length - 1) (max_retries - 1)) ∧
      (ModelFailover.runChain oracle base max_retries idx entries le).attempts
          = ModelFailover.gridAttempts idx entries.length max_retries := by
  intro entries
  induction entries with
  | nil => intro idx le h; simp at h
  | cons e rest ih =>
    intro idx le _
    obtain ⟨hA1, hA2, hA3⟩ := runEntry_allRetriable (oracle idx) (em idx) base
      max_retries (hc idx) (hr idx) max_retries 0 le hmax (by omega)
    cases rest with
    | nil =>
      refine ⟨?_, ?_, ?_⟩
      · simp only [ModelFailover.runChain, hA1]
      · simp only [ModelFailover.runChain, hA1]
        rw [hA2]
        simp only [List.length_singleton, Nat.add_sub_cancel]
      · simp only [ModelFailover.runChain, hA1]
        rw [hA3]
        simp only [List.length_singleton]
        unfold ModelFailover.gridAttempts
        rw [show List.range 1 = [0] by rfl]
        simp [List.map_map]
    | cons e2 rest2 =>
      obtain ⟨hB1, hB2, hB3⟩ := ih (idx + 1)
        ((ModelFailover.runEntry (oracle idx) base max_retries 0
          max_retries le).lastErr) (by simp)
      have hlen : 1 ≤ (e2 :: rest2).length := by simp
      generalize hg : e2 :: rest2 = restL at hB1 hB2 hB3 hlen ⊢
      refine ⟨?_, ?_, ?_⟩
      · simp only [ModelFailover.runChain, hA1]
        exact hB1
      · simp only [ModelFailover.runChain, hA1]
        rw [hB2]
        rw [show (e :: restL).length = restL.length + 1 from rfl]
        congr 2
        omega
      · simp only [ModelFailover.runChain, hA1]
        rw [hB3, hA3]
        rw [show (e :: restL).length = restL.length + 1 from rfl]
        rw [gridAttempts_succ]
        congr 1
        rw [List.map_map]
        simp

theorem call_with_failover_enabled_eq {A : Type}
    (oracle : ℕ → ℕ → Except String A) (pp pm chain : String)
    (max_retries : ℕ) (base : ℚ) :
    ModelFailover.call_with_failover oracle pp pm chain true max_retries base =
      ModelFailover.runChain oracle base max_retries 0
        ((pp, pm) :: ModelFailover.parse_failover_chain chain) none := by
  simp only [ModelFailover.call_with_failover, Bool.true_and]
  by_cases h : strIsEmpty chain = true
  · have hdata : chain.data = [] := by
      simpa [strIsEmpty, List.isEmpty_iff] using h
    have hparse : ModelFailover.parse_failover_chain chain = [] := by
      unfold ModelFailover.parse_failover_chain
      rw [if_pos ?_]
      simp [strTrim, strIsEmpty, hdata]
    simp [h, hparse]
  · have h2 : strIsEmpty chain = false := by
      revert h
      cases strIsEmpty chain <;> simp
    simp [h2]

/-! ### C7 -/

/-- C7: call_with_failover tries the primary entry and then the parsed
failover chain in order; with every attempt failing transiently each entry
is tried exactly max_retries_per_model times, in order, and the error of
the final attempt of the final entry is the one re-raised; a non-transient
first error on an entry moves immediately to the next entry (exactly one
attempt on the failing entry, every later attempt on later entries); and a
chain-spec entry without a colon separator is skipped rather than aborting
the parse. -/
theorem C7_failover_chain_behavior :
    (∀ (A : Type) (oracle : ℕ → ℕ → Except String A) (em : ℕ → ℕ → String)
      (pp pm chain : String) (base : ℚ) (max_retries : ℕ),
      1 ≤ max_retries →
      (∀ i j, oracle i j = Except.error (em i j)) →
      (∀ i j, ModelFailover.is_retriable (em i j) = true) →
      (ModelFailover.call_with_failover oracle pp pm chain true max_retries
        base).result = none ∧
      (ModelFailover.call_with_failover oracle pp pm chain true max_retries
        base).lastErr = some (em
          (((pp, pm) :: ModelFailover.parse_failover_chain chain).length - 1)
          (max_retries - 1)) ∧
      (ModelFailover.call_with_failover oracle pp pm chain true max_retries
        base).attempts = ModelFailover.gridAttempts 0
          ((pp, pm) :: ModelFailover.parse_failover_chain chain).length
          max_retries) ∧
    (∀ (A : Type) (oracle : ℕ → ℕ → Except String A) (e pp pm chain : String)
      (base : ℚ) (max_retries : ℕ),
      1 ≤ max_retries →
      oracle 0 0 = Except.error e →
      ModelFailover.is_retriable e = false →
      (ModelFailover.call_with_failover oracle pp pm chain true max_retries
        base).attempts = (0, 0) :: (ModelFailover.runChain oracle base
          max_retries 1 (ModelFailover.parse_failover_chain chain)
          (some e)).attempts ∧
      ∀ p ∈ (ModelFailover.runChain oracle base max_retries 1
          (ModelFailover.parse_failover_chain chain) (some e)).attempts,
        1 ≤ p.1) ∧
    ModelFailover.parse_failover_chain "openai:gpt-4o, badentry, ollama:llama3"
      = [("openai", "gpt-4o"), ("ollama", "llama3")] := by
  refine ⟨?_, ?_, by decide⟩
  · intro A oracle em pp pm chain base max_retries hmax hc hr
    rw [call_with_failover_enabled_eq]
    obtain ⟨h1, h2, h3⟩ := runChain_allRetriable oracle em base max_retries
      hmax hc hr ((pp, pm) :: ModelFailover.parse_failover_chain chain) 0 none
      (by simp)
    refine ⟨h1, ?_, ?_⟩
    · simpa using h2
    · simpa using h3
  · intro A oracle e pp pm chain base max_retries hmax h00 hnr
    obtain ⟨r, rfl⟩ : ∃ r, max_retries = r + 1 := ⟨max_retries - 1, by omega⟩
    constructor
    · rw [call_with_failover_enabled_eq]
      have hE : ModelFailover.runEntry (oracle 0) base (r + 1) 0 (r + 1) none
          = ⟨none, some e, [0], []⟩ := by
        rw [ModelFailover.runEntry, h00]
        simp [hnr]
      simp only [ModelFailover.runChain, hE]
      simp
    · exact runChain_attempts_idx_le oracle base (r + 1)
        (ModelFailover.parse_failover_chain chain) 1 (some e)

/-- Witness for C7 at concrete oracles: a chain of primary plus one parsed
entry, all-transient timeout errors giving the full two-by-two attempt
grid and re-raising the timeout, and a non-retriable first error giving a
single attempt on the primary before moving to the chain. -/
theorem C7_witness :
    ModelFailover.is_retriable "timeout" = true ∧
    ModelFailover.is_retriable "badauth" = false ∧
    ((ModelFailover.call_with_failover (fun _ _ => Except.error "timeout")
        "p0" "m0" "p1:m1" true 2 1 : ModelFailover.FoRun ℕ).result = none ∧
      (ModelFailover.call_with_failover (fun _ _ => Except.error "timeout")
        "p0" "m0" "p1:m1" true 2 1 : ModelFailover.FoRun ℕ).lastErr
        = some "timeout" ∧
      (ModelFailover.call_with_failover (fun _ _ => Except.error "timeout")
        "p0" "m0" "p1:m1" true 2 1 : ModelFailover.FoRun ℕ).attempts
        = [(0, 0), (0, 1), (1, 0), (1, 1)]) ∧
    (ModelFailover.call_with_failover
        (fun i _ => if i = 0 then Except.error "badauth" else Except.ok (0 : ℕ))
        "p0" "m0" "p1:m1" true 2 1).attempts =
      (0, 0) :: (ModelFailover.runChain
        (fun i _ => if i = 0 then Except.error "badauth" else Except.ok (0 : ℕ))
        1 2 1 (ModelFailover.parse_failover_chain "p1:m1")
        (some "badauth")).attempts := by
  have ht : ModelFailover.is_retriable "timeout" = true := by decide
  have hb : ModelFailover.is_retriable "badauth" = false := by decide
  obtain ⟨p1a, p1b, p1c⟩ := C7_failover_chain_behavior.1 ℕ
    (fun _ _ => Except.error "timeout") (fun _ _ => "timeout")
    "p0" "m0" "p1:m1" 1 2 (by decide) (fun _ _ => rfl) (fun _ _ => ht)
  refine ⟨ht, hb, ⟨p1a, p1b, ?_⟩, ?_⟩
  · rw [p1c]
    decide
  · exact (C7_failover_chain_behavior.2.1 ℕ
      (fun i _ => if i = 0 then Except.error "badauth" else Except.ok (0 : ℕ))
      "badauth" "p0" "m0" "p1:m1" 1 2 (by decide) rfl hb).1

theorem mem_expire_stale_not_expired {Meta : Type}
    (st : ThreadBindingManager Meta) (now : ℚ) :
    ∀ p ∈ ((st.expire_stale now).2).bindings,
      p.2.is_expired now st.ttl_hours = false := by
  intro p hp
  unfold ThreadBindingManager.expire_stale at hp
  by_cases h : st.ttl_hours ≤ 0
  · rw [if_pos h] at hp
    simp [ThreadBinding.is_expired, h]
  · rw [if_neg h] at hp
    have := (List.mem_filter.mp hp).2
    simpa using this

theorem mem_list_bindings_mem_values {Meta : Type}
    (st : ThreadBindingManager Meta) (g u : Option String)
    (b : ThreadBinding Meta) (hb : b ∈ st.list_bindings g u) :
    b ∈ st.bindings.map Prod.snd := by
  unfold ThreadBindingManager.list_bindings at hb
  rcases g with _ | gs <;> rcases u with _ | us <;> dsimp only at hb <;>
    (try split_ifs at hb) <;>
    first
      | exact hb
      | exact (List.mem_filter.mp hb).1
      | exact (List.mem_filter.mp (List.mem_filter.mp hb).1).1

/-! ### C1 -/

/-- C1 counterexample: blocking u, letting u create a pairing request (a
blocked sender is not authorized, so the request is created) and then
approving its code leaves u in the allowed set and in the blocked set at
the same time — approve_code does not remove the sender from the blocked
set, so the claimed invariant fails. -/
theorem C1_counterexample_both_sets :
    "u" ∈ (((pairingM0.block "u").create_request 0 genA 1 "u" "U"
        "chan").2.approve_code 0 "AAAAAAAA").2.allowlist ∧
    "u" ∈ (((pairingM0.block "u").create_request 0 genA 1 "u" "U"
        "chan").2.approve_code 0 "AAAAAAAA").2.blocklist := by
  have hgen : PairingManager.pick_fresh_code 8 genA [] 0 1 = some "AAAAAAAA" := by
    decide
  have hnorm : PairingManager.normalize_code "AAAAAAAA" = "AAAAAAAA" := by decide
  have hgc : PairingManager.generate_code 8 (genA 0) = "AAAAAAAA" := by decide
  constructor <;>
    simp [PairingManager.block, PairingManager.revoke, pairingM0,
      PairingManager.create_request, PairingManager.is_authorized,
      PairingManager.cleanup_expired, hgen, hnorm, hgc,
      PairingManager.approve_code, mkPairingRequest,
      PairingRequest.is_expired, List.lookup] <;>
    norm_num

/-- C1 amended: approve_code adds the approved sender to the allowed set
but leaves the blocked set unchanged, and block adds the id to the blocked
set while removing it from the allowed set; the two sets are therefore not
kept disjoint (a blocked sender whose request is approved is in both). -/
theorem C1_approve_keeps_blocklist_block_removes_allow :
    (∀ (m : PairingManager) (now : ℚ) (code : String) req m',
      m.approve_code now code = (some req, m') →
      m'.blocklist = m.blocklist ∧
      m'.allowlist = insert req.sender_id m.allowlist) ∧
    (∀ (m : PairingManager) (uid : String),
      (m.block uid).blocklist = insert uid m.blocklist ∧
      (m.block uid).allowlist = m.allowlist.erase uid) := by
  constructor
  · intro m now code req m' happ
    cases hl : List.lookup (PairingManager.normalize_code code) m.pending with
    | none => simp [PairingManager.approve_code, hl] at happ
    | some r =>
      cases hexp : r.is_expired now with
      | true => simp [PairingManager.approve_code, hl, hexp] at happ
      | false =>
        simp only [PairingManager.approve_code, hl, hexp, Bool.false_eq_true,
          if_false, Prod.mk.injEq, Option.some.injEq] at happ
        obtain ⟨hreq, hm'⟩ := happ
        rw [← hm']
        exact ⟨rfl, by rw [hreq]⟩
  · intro m uid
    by_cases hmem : uid ∈ m.allowlist
    · simp [PairingManager.block, PairingManager.revoke, hmem]
    · simp [PairingManager.block, PairingManager.revoke, hmem,
        (Finset.erase_eq_self).mpr hmem]

/-- Witness for C1's amended theorem: approving the stored code at a
concrete state keeps the blocked set and inserts the sender into the
allowed set, and blocking a fresh id inserts it into the blocked set while
erasing it from the allowed set. -/
theorem C1_witness :
    (pairingM1.approve_code 0 "ABCDEFGH" = (some reqA, pairingM1approved) ∧
      pairingM1approved.blocklist = pairingM1.blocklist) ∧
    ((pairingM1.block "w").blocklist = insert "w" pairingM1.blocklist ∧
      (pairingM1.block "w").allowlist = pairingM1.allowlist.erase "w") := by
  have hl : List.lookup (PairingManager.normalize_code "ABCDEFGH")
      pairingM1.pending = some reqA := by decide
  have hexp : reqA.is_expired 0 = false := by decide
  have her : pairingM1.pending.eraseP
      (fun p => p.1 == PairingManager.normalize_code "ABCDEFGH") = [] := by decide
  have happ : pairingM1.approve_code 0 "ABCDEFGH" = (some reqA, pairingM1approved) := by
    simp [PairingManager.approve_code, hl, hexp, her, reqA, pairingM1approved,
      PairingRequest.is_expired]
  refine ⟨⟨happ, ?_⟩,
    C1_approve_keeps_blocklist_block_removes_allow.2 pairingM1 "w"⟩
  exact (C1_approve_keeps_blocklist_block_removes_allow.1 pairingM1 0
    "ABCDEFGH" reqA _ happ).1

/-! ### C2 -/

/-- C2 counterexample: a binding whose TTL (1 hour) has elapsed at the
time of call but which the sweep has not yet removed is still returned by
list_bindings, so the query operations do not reflect only non-expired
state. -/
theorem C2_counterexample_query_returns_expired :
    staleBinding.is_expired 3600 threadM1.ttl_hours = true ∧
    threadM1.list_bindings none none = [staleBinding] ∧
    staleBinding ∈ threadM1.list_bindings none none := by
  refine ⟨?_, rfl, ?_⟩
  · simp [ThreadBinding.is_expired, staleBinding, threadM1]
  · rw [show threadM1.list_bindings none none = [staleBinding] from rfl]
    simp

/-- C2 amended: the query operations read the binding map without any
expiry check, so a stale binding is returned until the sweep removes it;
what does hold is that immediately after expire_stale runs, list_bindings,
get_bindings_for_target and get_targets only reflect bindings that are
non-expired at the sweep time. -/
theorem C2_queries_after_sweep_non_expired {Meta : Type}
    (st : ThreadBindingManager Meta) (now : ℚ) (g u : Option String) :
    (∀ b ∈ (st.expire_stale now).2.list_bindings g u,
      b.is_expired now st.ttl_hours = false) ∧
    (∀ (tgt : String), ∀ b ∈ (st.expire_stale now).2.get_bindings_for_target tgt,
      b.is_expired now st.ttl_hours = false) ∧
    (∀ tgt ∈ (st.expire_stale now).2.get_targets,
      ∃ b ∈ ((st.expire_stale now).2).bindings.map Prod.snd,
        b.is_expired now st.ttl_hours = false ∧ b.target = tgt) := by
  refine ⟨?_, ?_, ?_⟩
  · intro b hb
    have hv := mem_list_bindings_mem_values (st.expire_stale now).2 g u b hb
    obtain ⟨p, hp, rfl⟩ := List.mem_map.mp hv
    exact mem_expire_stale_not_expired st now p hp
  · intro tgt b hb
    unfold ThreadBindingManager.get_bindings_for_target at hb
    have hv := (List.mem_filter.mp hb).1
    obtain ⟨p, hp, rfl⟩ := List.mem_map.mp hv
    exact mem_expire_stale_not_expired st now p hp
  · intro tgt htgt
    unfold ThreadBindingManager.get_targets at htgt
    have hmem := List.mem_dedup.mp htgt
    obtain ⟨b, hb, rfl⟩ := List.mem_map.mp hmem
    refine ⟨b, hb, ?_, rfl⟩
    obtain ⟨p, hp, rfl⟩ := List.mem_map.mp hb
    exact mem_expire_stale_not_expired st now p hp

/-- Witness for C2's amended theorem: after the sweep at time 2 the stored
non-stale binding is still listed and is non-expired. -/
theorem C2_witness :
    oldBinding ∈ (threadM0.expire_stale 2).2.list_bindings none none ∧
    oldBinding.is_expired 2 threadM0.ttl_hours = false := by
  have hmem : oldBinding ∈ (threadM0.expire_stale 2).2.list_bindings none none := by
    simp [ThreadBindingManager.expire_stale, ThreadBindingManager.list_bindings,
      ThreadBinding.is_expired, threadM0, oldBinding]
  exact ⟨hmem,
    (C2_queries_after_sweep_non_expired threadM0 2 none none).1 oldBinding hmem⟩

/-! ### C3 -/

/-- C3 counterexample: on a tracker with both callbacks set, calling
phase("thinking") twice in a row invokes the add callback twice in total
(once per call), not once as the claim states; the remove callback is not
invoked. -/
theorem C3_counterexample_same_phase_readds :
    (trackerT0.phase "thinking").2 = [ReactionEvent.add "🤔"] ∧
    ((trackerT0.phase "thinking").1.phase "thinking").2 =
      [ReactionEvent.add "🤔"] ∧
    ((trackerT0.phase "thinking").2 ++
      ((trackerT0.phase "thinking").1.phase "thinking").2).length = 2 ∧
    (2 : ℕ) ≠ 1 := by
  refine ⟨by decide, by decide, by decide, by decide⟩

/-- C3 amended: with both callbacks set, phase("thinking") then
phase("done") invokes exactly one remove (with the thinking indicator) and
one add for done; but calling the same phase twice in a row invokes the
add callback once per call (so twice in total) and the remove callback
never. -/
theorem C3_thinking_done_one_remove_one_add (t : LifecycleTracker)
    (hr : t.hasReact = true) (hu : t.hasUnreact = true)
    (hp : t.current_phase = none) (he : t.emojis = DEFAULT_EMOJIS) :
    (t.phase "thinking").2 = [ReactionEvent.add "🤔"] ∧
    ((t.phase "thinking").1.phase "done").2 =
      [ReactionEvent.remove "🤔", ReactionEvent.add "✅"] ∧
    ((t.phase "thinking").1.phase "thinking").2 = [ReactionEvent.add "🤔"] := by
  have h1 : strIsEmpty "🤔" = false := by decide
  have h2 : strIsEmpty "✅" = false := by decide
  have h3 : strIsEmpty "thinking" = false := by decide
  refine ⟨?_, ?_, ?_⟩
  · simp [LifecycleTracker.phase, emojiFor, DEFAULT_EMOJIS, he, hp, hr, h1]
  · simp [LifecycleTracker.phase, emojiFor, DEFAULT_EMOJIS, he, hp, hr, hu,
      h1, h2, h3]
  · simp [LifecycleTracker.phase, emojiFor, DEFAULT_EMOJIS, he, hp, hr, hu,
      h1, h3]

/-- Witness for C3's amended theorem at the concrete tracker. -/
theorem C3_witness :
    trackerT0.hasReact = true ∧
    ((trackerT0.phase "thinking").2 = [ReactionEvent.add "🤔"] ∧
      ((trackerT0.phase "thinking").1.phase "done").2 =
        [ReactionEvent.remove "🤔", ReactionEvent.add "✅"] ∧
      ((trackerT0.phase "thinking").1.phase "thinking").2 =
        [ReactionEvent.add "🤔"]) :=
  ⟨rfl, C3_thinking_done_one_remove_one_add trackerT0 rfl rfl rfl rfl⟩

/-! ### C4 -/

/-- C4 counterexample: after a first disconnect (sleep 5 s) the loop
reconnects; when that successfully re-established connection later drops
again, the second sleep is the doubled 10 s, not the 5 s floor — the delay
is never reset inside the loop. -/
theorem C4_counterexample_no_reset_after_reconnect :
    (MatrixChannelAdapter.sync_with_reconnect
      [MatrixChannelAdapter.SyncFate.drop "err1",
       MatrixChannelAdapter.SyncFate.drop "err2"]).1 = [5, 10] ∧
    (10 : ℚ) ≠ 5 := by
  constructor
  · simp [MatrixChannelAdapter.sync_with_reconnect,
      MatrixChannelAdapter.reconnectLoop,
      MatrixChannelAdapter.RECONNECT_INITIAL_DELAY,
      MatrixChannelAdapter.RECONNECT_MAX_DELAY]
    norm_num
  · norm_num

theorem reconnectLoop_all_drops :
    ∀ (fates : List MatrixChannelAdapter.SyncFate),
      (∀ f ∈ fates, ∃ e, f = MatrixChannelAdapter.SyncFate.drop e) →
      ∀ k : ℕ,
      (MatrixChannelAdapter.reconnectLoop (min (5 * 2 ^ k) 300) fates).1 =
        (List.range fates.length).map (fun i => min (5 * 2 ^ (k + i)) 300) ∧
      (MatrixChannelAdapter.reconnectLoop (min (5 * 2 ^ k) 300) fates).2 =
        MatrixChannelAdapter.RECONNECT_INITIAL_DELAY := by
  intro fates
  induction fates with
  | nil =>
    intro _ k
    exact ⟨rfl, rfl⟩
  | cons f rest ih =>
    intro hdrop k
    obtain ⟨e, rfl⟩ := hdrop f (by simp)
    have hrest : ∀ f ∈ rest, ∃ e, f = MatrixChannelAdapter.SyncFate.drop e :=
      fun f hf => hdrop f (by simp [hf])
    have hmin : min ((min ((5 : ℚ) * 2 ^ k) 300) * 2) 300
        = min ((5 : ℚ) * 2 ^ (k + 1)) 300 := by
      rcases le_total ((5 : ℚ) * 2 ^ k) 300 with hle | hge
      · rw [min_eq_left hle]
        congr 1
        ring
      · have h2k : (0 : ℚ) ≤ 2 ^ k := by positivity
        have h300 : (300 : ℚ) ≤ 5 * 2 ^ (k + 1) := by
          have hpow : (5 : ℚ) * 2 ^ (k + 1) = 10 * 2 ^ k := by ring
          rw [hpow]
          linarith
        rw [min_eq_right hge, min_eq_right (by norm_num : (300:ℚ) ≤ 300 * 2),
          min_eq_right h300]
    obtain ⟨ih1, ih2⟩ := ih hrest (k + 1)
    simp only [MatrixChannelAdapter.reconnectLoop,
      MatrixChannelAdapter.RECONNECT_MAX_DELAY, hmin]
    refine ⟨?_, ih2⟩
    rw [ih1]
    simp only [List.length_cons, List.range_succ_eq_map, List.map_cons,
      List.map_map, Nat.add_zero]
    congr 1
    have hfun : ((fun i => min ((5 : ℚ) * 2 ^ (k + i)) 300) ∘ Nat.succ)
        = fun i => min ((5 : ℚ) * 2 ^ (k + 1 + i)) 300 := by
      funext i
      simp only [Function.comp_apply]
      rw [show k + Nat.succ i = k + 1 + i from by omega]
    rw [hfun]

/-- C4 amended: the reconnect wait starts at the 5 s floor and doubles
after every disconnect up to the 300 s cap, with no reset on a successful
reconnect: over any run of consecutive disconnects the n-th sleep is
min(5 * 2^n, 300), and the stored delay is reset to the floor only when
the loop exits. -/
theorem C4_reconnect_delay_doubles_without_reset
    (fates : List MatrixChannelAdapter.SyncFate)
    (hdrop : ∀ f ∈ fates, ∃ e, f = MatrixChannelAdapter.SyncFate.drop e) :
    (MatrixChannelAdapter.sync_with_reconnect fates).1 =
      (List.range fates.length).map (fun i => min ((5 : ℚ) * 2 ^ i) 300) ∧
    (MatrixChannelAdapter.sync_with_reconnect fates).2 =
      MatrixChannelAdapter.RECONNECT_INITIAL_DELAY := by
  have h5 : MatrixChannelAdapter.RECONNECT_INITIAL_DELAY
      = min ((5 : ℚ) * 2 ^ (0 : ℕ)) 300 := by
    rw [MatrixChannelAdapter.RECONNECT_INITIAL_DELAY]
    norm_num
  obtain ⟨h1, h2⟩ := reconnectLoop_all_drops fates hdrop 0
  constructor
  · unfold MatrixChannelAdapter.sync_with_reconnect
    rw [h5, h1]
    simp
  · unfold MatrixChannelAdapter.sync_with_reconnect
    rw [h5, h2]
    exact h5

/-- Witness for C4's amended theorem on two consecutive disconnects:
sleeps 5 s then 10 s, and the stored delay is the floor after exit. -/
theorem C4_witness :
    (MatrixChannelAdapter.sync_with_reconnect
      [MatrixChannelAdapter.SyncFate.drop "a",
       MatrixChannelAdapter.SyncFate.drop "b"]).1 =
      (List.range 2).map (fun i => min ((5 : ℚ) * 2 ^ i) 300) ∧
    (MatrixChannelAdapter.sync_with_reconnect
      [MatrixChannelAdapter.SyncFate.drop "a",
       MatrixChannelAdapter.SyncFate.drop "b"]).2 =
      MatrixChannelAdapter.RECONNECT_INITIAL_DELAY := by
  refine C4_reconnect_delay_doubles_without_reset _ ?_
  intro f hf
  simp only [List.mem_cons, List.not_mem_nil, or_false] at hf
  rcases hf with rfl | rfl
  · exact ⟨"a", rfl⟩
  · exact ⟨"b", rfl⟩
/-! ### C5 -/

/-- C5 counterexample: with code_ttl_seconds configured to 60, the created
request still expires 3600 s after creation — the configured TTL is stored
but never used, so the expiry does not equal creation time plus the
configured TTL. -/
theorem C5_counterexample_ttl_config_ignored :
    ∃ req m2, pairingM2.create_request 0 genA 1 "u" "U" "chan" = (some req, m2) ∧
      req.created_at = 0 ∧ req.expires_at = 3600 ∧ pairingM2.code_ttl = 60 ∧
      req.expires_at ≠ req.created_at + (pairingM2.code_ttl : ℚ) := by
  have hgen : PairingManager.pick_fresh_code 8 genA [] 0 1 = some "AAAAAAAA" := by
    decide
  refine ⟨mkPairingRequest "AAAAAAAA" "u" "U" "chan" 0 0,
    { pairingM2 with
      pending := [("AAAAAAAA", mkPairingRequest "AAAAAAAA" "u" "U" "chan" 0 0)] },
    ?_, ?_, ?_, rfl, ?_⟩
  · simp [PairingManager.create_request, PairingManager.is_authorized,
      PairingManager.cleanup_expired, pairingM2, pairingM0, hgen]
  · rfl
  · simp [mkPairingRequest]
  · simp [mkPairingRequest, pairingM2, pairingM0]

/-- C5 amended: create_request returns nothing for an authorized sender,
for a sender with a non-expired pending request, and for a full channel;
otherwise (when the fresh-code search succeeds) it returns a request whose
code has the configured length over the safe alphabet (excluding 0, O, 1
and I), is distinct from every currently pending code, and whose expiry
equals its creation time plus 3600 s — one hour hardcoded, not the
configured code_ttl_seconds. -/
theorem C5_create_request_semantics (m : PairingManager) (now : ℚ)
    (gen : ℕ → ℕ → Fin 32) (fuel : ℕ) (sender name chan : String) :
    (m.is_authorized sender = true →
      m.create_request now gen fuel sender name chan = (none, m)) ∧
    (m.is_authorized sender = false →
      m.pending.any (fun p => p.2.sender_id == sender && !(p.2.is_expired now))
        = true →
      m.create_request now gen fuel sender name chan = (none, m)) ∧
    (m.is_authorized sender = false →
      m.pending.any (fun p => p.2.sender_id == sender && !(p.2.is_expired now))
        = false →
      m.max_pending ≤ ((m.pending.filter (fun p => !(p.2.is_expired now))).filter
        (fun p => p.2.channel_id == chan && !(p.2.is_expired now))).length →
      m.create_request now gen fuel sender name chan
        = (none, m.cleanup_expired now)) ∧
    (∀ code, m.is_authorized sender = false →
      m.pending.any (fun p => p.2.sender_id == sender && !(p.2.is_expired now))
        = false →
      ((m.pending.filter (fun p => !(p.2.is_expired now))).filter
        (fun p => p.2.channel_id == chan && !(p.2.is_expired now))).length
        < m.max_pending →
      PairingManager.pick_fresh_code m.code_length gen
        ((m.pending.filter (fun p => !(p.2.is_expired now))).map Prod.fst) 0 fuel
        = some code →
      ∃ req m2,
        m.create_request now gen fuel sender name chan = (some req, m2) ∧
        req.code = code ∧
        code.data.length = m.code_length ∧
        (∀ ch ∈ code.data, ch ∈ SAFE_CHARS) ∧
        (∀ ch ∈ code.data, ch ≠ '0' ∧ ch ≠ 'O' ∧ ch ≠ '1' ∧ ch ≠ 'I') ∧
        ((m.pending.filter (fun p => !(p.2.is_expired now))).map
          Prod.fst).contains code = false ∧
        req.created_at = now ∧
        req.expires_at = now + 3600 ∧
        m2.pending = m.pending.filter (fun p => !(p.2.is_expired now))
          ++ [(code, req)]) := by
  refine ⟨?_, ?_, ?_, ?_⟩
  · intro h
    simp [PairingManager.create_request, h]
  · intro h1 h2
    simp [PairingManager.create_request, h1, h2]
  · intro h1 h2 h3
    simp only [PairingManager.create_request, PairingManager.cleanup_expired,
      h1, h2, Bool.false_eq_true, if_false]
    rw [if_pos h3]
  · intro code h1 h2 h3 h4
    have hnotle := Nat.not_le.mpr h3
    have hcr : m.create_request now gen fuel sender name chan =
        (some (mkPairingRequest code sender name chan now 0),
         { m with pending := m.pending.filter (fun p => !(p.2.is_expired now)) ++
            [(code, mkPairingRequest code sender name chan now 0)] }) := by
      simp only [PairingManager.create_request, PairingManager.cleanup_expired,
        h1, h2, Bool.false_eq_true, if_false, h4]
      rw [if_neg hnotle]
    obtain ⟨hfresh, n, hgenn⟩ :=
      pick_fresh_code_spec m.code_length gen _ 0 fuel code h4
    have hsafe : ∀ ch ∈ SAFE_CHARS, ch ≠ '0' ∧ ch ≠ 'O' ∧ ch ≠ '1' ∧ ch ≠ 'I' := by
      decide
    refine ⟨mkPairingRequest code sender name chan now 0, _, hcr, rfl,
      ?_, ?_, ?_, hfresh, rfl, ?_, rfl⟩
    · rw [hgenn]
      exact generate_code_length m.code_length (gen n)
    · intro ch hch
      rw [hgenn] at hch
      exact generate_code_chars m.code_length (gen n) ch hch
    · intro ch hch
      rw [hgenn] at hch
      exact hsafe ch (generate_code_chars m.code_length (gen n) ch hch)
    · simp [mkPairingRequest]

/-- Witness for C5's amended theorem exercising each branch at concrete
states: an authorized sender, a sender with a pending request, a full
channel, and a successful creation. -/
theorem C5_witness :
    pairingMBoth.create_request 0 genA 1 "u" "U" "chan" = (none, pairingMBoth) ∧
    pairingM1.create_request 0 genA 1 "u" "U" "chan" = (none, pairingM1) ∧
    pairingM3.create_request 0 genA 1 "v" "V" "chan"
      = (none, pairingM3.cleanup_expired 0) ∧
    (∃ req m2,
      pairingM0.create_request 0 genA 1 "u" "U" "chan" = (some req, m2) ∧
      req.code = "AAAAAAAA" ∧
      "AAAAAAAA".data.length = pairingM0.code_length ∧
      (∀ ch ∈ "AAAAAAAA".data, ch ∈ SAFE_CHARS) ∧
      (∀ ch ∈ "AAAAAAAA".data, ch ≠ '0' ∧ ch ≠ 'O' ∧ ch ≠ '1' ∧ ch ≠ 'I') ∧
      ((pairingM0.pending.filter (fun p => !(p.2.is_expired 0))).map
        Prod.fst).contains "AAAAAAAA" = false ∧
      req.created_at = 0 ∧
      req.expires_at = 0 + 3600 ∧
      m2.pending = pairingM0.pending.filter (fun p => !(p.2.is_expired 0))
        ++ [("AAAAAAAA", req)]) := by
  refine ⟨?_, ?_, ?_, ?_⟩
  · exact (C5_create_request_semantics pairingMBoth 0 genA 1 "u" "U" "chan").1
      (by decide)
  · exact (C5_create_request_semantics pairingM1 0 genA 1 "u" "U" "chan").2.1
      (by decide) (by decide)
  · exact (C5_create_request_semantics pairingM3 0 genA 1 "v" "V" "chan").2.2.1
      (by decide) (by decide) (by decide)
  · exact (C5_create_request_semantics pairingM0 0 genA 1 "u" "U" "chan").2.2.2
      "AAAAAAAA" (by decide) (by decide) (by decide) (by decide)

/-! ### C6 -/

/-- C6: approve_code works on the uppercased and trimmed code; it returns
the pending request, adds its sender to the allowed set and removes the
pending entry exactly when a non-expired pending request under that
normalised code exists; a missing code changes nothing, an expired code
only purges the expired entry; and after a successful approval a second
call with the same code returns nothing. -/
theorem C6_approve_code_semantics (m : PairingManager) (now : ℚ)
    (code : String) :
    (List.lookup (PairingManager.normalize_code code) m.pending = none →
      m.approve_code now code = (none, m)) ∧
    (∀ req, List.lookup (PairingManager.normalize_code code) m.pending = some req →
      req.is_expired now = true →
      m.approve_code now code =
        (none, { m with pending := List.eraseP (fun p => p.1 == PairingManager.normalize_code code) m.pending })) ∧
    (∀ req, List.lookup (PairingManager.normalize_code code) m.pending = some req →
      req.is_expired now = false →
      m.approve_code now code =
        (some req, { m with
          allowlist := insert req.sender_id m.allowlist,
          pending := List.eraseP (fun p => p.1 == PairingManager.normalize_code code) m.pending })) ∧
    (∀ req m', (m.pending.map Prod.fst).Nodup →
      m.approve_code now code = (some req, m') →
      (m'.approve_code now code).1 = none) := by
  refine ⟨?_, ?_, ?_, ?_⟩
  · intro h
    simp [PairingManager.approve_code, h]
  · intro req h hexp
    simp [PairingManager.approve_code, h, hexp]
  · intro req h hexp
    simp [PairingManager.approve_code, h, hexp]
  · intro req m' hnd happ
    cases hl : List.lookup (PairingManager.normalize_code code) m.pending with
    | none => simp [PairingManager.approve_code, hl] at happ
    | some r =>
      cases hexp : r.is_expired now with
      | true => simp [PairingManager.approve_code, hl, hexp] at happ
      | false =>
        have hm' : m'.pending = m.pending.eraseP
            (fun p => p.1 == PairingManager.normalize_code code) := by
          have := happ
          simp [PairingManager.approve_code, hl, hexp] at this
          rw [← this.2]
        have hnone : List.lookup (PairingManager.normalize_code code) m'.pending
            = none := by
          rw [hm']
          exact lookup_eraseP_nodup m.pending _ hnd
        simp [PairingManager.approve_code, hnone]

/-- Witness for C6 at a concrete state: a lowercase, padded code is
normalised and approved, moving the sender to the allowlist and emptying
the pending map, and a second approval of the same code returns nothing. -/
theorem C6_witness :
    List.lookup (PairingManager.normalize_code " abcdefgh ") pairingM1.pending
      = some reqA ∧
    reqA.is_expired 0 = false ∧
    pairingM1.approve_code 0 " abcdefgh " =
      (some reqA, { pairingM1 with
        allowlist := insert "u" pairingM1.allowlist,
        pending := List.eraseP (fun p => p.1 == PairingManager.normalize_code " abcdefgh ") pairingM1.pending }) ∧
    (((pairingM1.approve_code 0 " abcdefgh ").2.approve_code 0 " abcdefgh ").1
      = none) := by
  have hl : List.lookup (PairingManager.normalize_code " abcdefgh ")
      pairingM1.pending = some reqA := by decide
  have hexp : reqA.is_expired 0 = false := by decide
  have hnd : (pairingM1.pending.map Prod.fst).Nodup := by decide
  have happ := (C6_approve_code_semantics pairingM1 0 " abcdefgh ").2.2.1 reqA hl hexp
  refine ⟨hl, hexp, by simpa using happ, ?_⟩
  exact (C6_approve_code_semantics pairingM1 0 " abcdefgh ").2.2.2 reqA _ hnd happ

/-! ### C9 -/

/-- C9: under the pairing policy is_authorized consults the allowed set
before the blocked set, so an id in both sets is authorized; and a blocked
non-owner, non-allowed sender is not authorized, so create_request (given
no pending request for the sender, a free channel slot and a successful
fresh-code search) creates a request whose approval makes the sender
authorized while the id stays in the blocked set. -/
theorem C9_allow_checked_before_block_and_blocked_can_pair :
    (∀ (m : PairingManager) (uid : String), m.policy = "pairing" →
      uid ∈ m.allowlist → uid ∈ m.blocklist → m.is_authorized uid = true) ∧
    (∀ (m : PairingManager) (now : ℚ) (gen : ℕ → ℕ → Fin 32) (fuel : ℕ)
      (sender name chan code : String),
      m.policy = "pairing" →
      m.owner_user_id ≠ some sender →
      sender ∉ m.allowlist →
      sender ∈ m.blocklist →
      m.pending.any (fun p => p.2.sender_id == sender && !(p.2.is_expired now))
        = false →
      ((m.pending.filter (fun p => !(p.2.is_expired now))).filter
        (fun p => p.2.channel_id == chan && !(p.2.is_expired now))).length
        < m.max_pending →
      PairingManager.pick_fresh_code m.code_length gen
        ((m.pending.filter (fun p => !(p.2.is_expired now))).map Prod.fst) 0 fuel
        = some code →
      PairingManager.normalize_code code = code →
      ∃ req m2 m3,
        m.create_request now gen fuel sender name chan = (some req, m2) ∧
        req.sender_id = sender ∧
        m2.approve_code now code = (some req, m3) ∧
        m3.is_authorized sender = true ∧
        sender ∈ m3.blocklist) := by
  constructor
  · intro m uid hpol hal hbl
    by_cases how : some uid = m.owner_user_id <;>
      simp [PairingManager.is_authorized, hpol, how, hal]
  · intro m now gen fuel sender name chan code hpol howner hallow hblock hpend
      hcount hpick hnorm
    have howner' : ¬(some sender = m.owner_user_id) := fun h => howner h.symm
    have hauth : m.is_authorized sender = false := by
      simp [PairingManager.is_authorized, hpol, howner', hallow, hblock]
    have hnotle : ¬(m.max_pending ≤
        ((m.pending.filter (fun p => !(p.2.is_expired now))).filter
          (fun p => p.2.channel_id == chan && !(p.2.is_expired now))).length) :=
      Nat.not_le.mpr hcount
    have hcr : m.create_request now gen fuel sender name chan =
        (some (mkPairingRequest code sender name chan now 0),
         { m with pending := m.pending.filter (fun p => !(p.2.is_expired now)) ++
            [(code, mkPairingRequest code sender name chan now 0)] }) := by
      simp only [PairingManager.create_request, PairingManager.cleanup_expired,
        hauth, hpend, Bool.false_eq_true, if_false, hpick]
      rw [if_neg hnotle]
    have hfresh : ∀ p ∈ m.pending.filter (fun p => !(p.2.is_expired now)),
        p.1 ≠ code := by
      have hcontains :=
        (pick_fresh_code_spec m.code_length gen _ 0 fuel code hpick).1
      have hnotmem : code ∉ (m.pending.filter
          (fun p => !(p.2.is_expired now))).map Prod.fst := by
        intro hmem
        have := List.elem_iff.mpr hmem
        rw [show List.elem code ((m.pending.filter
            (fun p => !(p.2.is_expired now))).map Prod.fst) =
          ((m.pending.filter (fun p => !(p.2.is_expired now))).map
            Prod.fst).contains code from rfl, hcontains] at this
        exact Bool.false_ne_true this
      intro p hp heq
      exact hnotmem (List.mem_map.mpr ⟨p, hp, heq⟩)
    have hlook : List.lookup code
        ((m.pending.filter (fun p => !(p.2.is_expired now))) ++
          [(code, mkPairingRequest code sender name chan now 0)]) =
        some (mkPairingRequest code sender name chan now 0) :=
      lookup_append_fresh _ _ _ hfresh
    have hexp0 : (mkPairingRequest code sender name chan now 0).is_expired now
        = false := by
      have hlt : ¬(now + 3600 ≤ now) := by linarith
      simp [mkPairingRequest, PairingRequest.is_expired, hlt]
    refine ⟨mkPairingRequest code sender name chan now 0,
      { m with pending := m.pending.filter (fun p => !(p.2.is_expired now)) ++
          [(code, mkPairingRequest code sender name chan now 0)] },
      { m with
        allowlist := insert (mkPairingRequest code sender name chan now 0).sender_id m.allowlist,
        pending := List.eraseP (fun p => p.1 == code) (m.pending.filter (fun p => !(p.2.is_expired now)) ++ [(code, mkPairingRequest code sender name chan now 0)]) },
      hcr, rfl, ?_, ?_, hblock⟩
    · simp only [PairingManager.approve_code, hnorm, hlook, hexp0,
        Bool.false_eq_true, if_false]
    · simp [PairingManager.is_authorized, hpol, howner', mkPairingRequest]

/-- Witness for C9 at concrete states: an id in both sets is authorized,
and a blocked sender's request is created and approved, leaving the sender
authorized and still blocked. -/
theorem C9_witness :
    pairingMBoth.is_authorized "u" = true ∧
    (∃ req m2 m3,
      pairingMB.create_request 0 genA 1 "u" "U" "chan" = (some req, m2) ∧
      req.sender_id = "u" ∧
      m2.approve_code 0 "AAAAAAAA" = (some req, m3) ∧
      m3.is_authorized "u" = true ∧
      "u" ∈ m3.blocklist) := by
  constructor
  · exact C9_allow_checked_before_block_and_blocked_can_pair.1 pairingMBoth "u"
      rfl (by decide) (by decide)
  · exact C9_allow_checked_before_block_and_blocked_can_pair.2 pairingMB 0 genA
      1 "u" "U" "chan" "AAAAAAAA" rfl (by decide) (by decide) (by decide) rfl
      (by decide) (by decide) (by decide)

/-! ### C8 -/

/-- C8: with MAX_RETRIES = 3 and BASE_BACKOFF_SECONDS = 2, a send whose
every attempt fails with an overload-classified error performs exactly
three attempts with sleeps of 2 s and 4 s between them and returns
failure, while a send whose first attempt fails with a non-overload error
returns failure after one attempt and zero sleeps. -/
theorem C8_send_retry_backoff_and_permanent_failure (target : String)
    (ht : strContainsChar target ':' = true) :
    (∀ em : ℕ → String,
      (∀ n, MatrixChannelAdapter.is_overload_error (em n) = true) →
      MatrixChannelAdapter.send_message true target (fun n => Except.error (em n)) =
        (false, [2, 4], 3)) ∧
    (∀ (oracle : ℕ → Except String Unit) (e : String),
      oracle 0 = Except.error e →
      MatrixChannelAdapter.is_overload_error e = false →
      MatrixChannelAdapter.send_message true target oracle = (false, [], 1)) := by
  constructor
  · intro em hov
    simp only [MatrixChannelAdapter.send_message, ht, Bool.not_true,
      Bool.false_eq_true, if_false, MatrixChannelAdapter.MAX_RETRIES,
      MatrixChannelAdapter.BASE_BACKOFF_SECONDS, MatrixChannelAdapter.sendLoop,
      hov, Bool.true_and, decide_eq_true_eq]
    norm_num
  · intro oracle e h0 hp
    simp [MatrixChannelAdapter.send_message, ht,
      MatrixChannelAdapter.MAX_RETRIES, MatrixChannelAdapter.sendLoop, h0, hp]

/-- Witness for C8 at a concrete target and concrete errors: the target
holds a colon, every-attempt "overloaded" errors give three attempts with
sleeps 2 and 4, and a first-attempt "forbidden" error gives one attempt
and no sleeps. -/
theorem C8_witness :
    strContainsChar "room:!r:hs" ':' = true ∧
    (MatrixChannelAdapter.send_message true "room:!r:hs"
        (fun n => Except.error "overloaded") = (false, [2, 4], 3) ∧
      MatrixChannelAdapter.send_message true "room:!r:hs"
        (fun _ => Except.error "forbidden") = (false, [], 1)) := by
  have ht : strContainsChar "room:!r:hs" ':' = true := by decide
  have hov : ∀ n : ℕ, MatrixChannelAdapter.is_overload_error "overloaded" = true := by
    intro n
    decide
  have hperm : MatrixChannelAdapter.is_overload_error "forbidden" = false := by decide
  refine ⟨ht, ?_, ?_⟩
  · exact (C8_send_retry_backoff_and_permanent_failure "room:!r:hs" ht).1
      (fun _ => "overloaded") (fun n => hov n)
  · exact (C8_send_retry_backoff_and_permanent_failure "room:!r:hs" ht).2
      (fun _ => Except.error "forbidden") "forbidden" rfl hperm

end ChannelKernel
